import Mathlib

/-!
Shallow embedding of the consul-port-redirector resolution engine
(`main.go`): hostname parsing (`parseConsulAddress`), URL construction
(`buildUrlWithPort`, `guessScheme`), catalog post-processing
(`queryConsulForHostname` with its `sort.Slice` call), and the `ServeHTTP`
precedence chain, together with theorems checking the natural-language
specification against these definitions.

Go strings are modelled as Lean `String`s; the Go standard-library string
operations the source uses are re-implemented here on the underlying
character lists so that every definition evaluates inside the kernel.  All
inputs appearing in the claims are ASCII, where character-wise and
Go byte-wise operations coincide.
-/

namespace PortRedirector

/-- Does character list `s` start with pattern `pat`?  Models Go
`strings.HasPrefix` on the characters of the two strings. -/
def charsLeadWith (s pat : List Char) : Bool :=
  match s, pat with
  | _, [] => true
  | [], _ :: _ => false
  | c :: cs, d :: ds => c == d && charsLeadWith cs ds

/-- Splits `s` around the first occurrence of `sub`: returns
`some (before, after)` when `sub` occurs in `s`, and `none` otherwise. -/
def charsSplitFirst : List Char → List Char → Option (List Char × List Char)
  | [], sub => if sub.isEmpty then some ([], []) else none
  | c :: cs, sub =>
    if charsLeadWith (c :: cs) sub then some ([], (c :: cs).drop sub.length)
    else
      match charsSplitFirst cs sub with
      | none => none
      | some (l, r) => some (c :: l, r)

/-- Models Go `strings.SplitN(s, sep, 2)`: the part before the first
occurrence of `sep` paired with the part after it.  When `sep` does not
occur, the Go result is the one-element slice `[s]`; the callers in the
source only read index 1 after a `strings.Contains` check, so the second
component is `""` in that case. -/
def goSplitN2 (s sep : String) : String × String :=
  match charsSplitFirst s.data sep.data with
  | none => (s, "")
  | some (l, r) => (⟨l⟩, ⟨r⟩)

/-- Models Go `strings.Contains`. -/
def goContains (s sub : String) : Bool :=
  (charsSplitFirst s.data sub.data).isSome

/-- Models Go `strings.Count(s, sep)` for a one-character separator, the
only form the source uses (`strings.Count(svcType, ".")`). -/
def goCountChar (s : String) (c : Char) : Nat :=
  s.data.countP (fun d => d == c)

/-- Models Go `strings.HasPrefix`. -/
def goHasLead (s pat : String) : Bool :=
  charsLeadWith s.data pat.data

/-- Models Go `strings.HasSuffix`. -/
def goEndsWith (s pat : String) : Bool :=
  charsLeadWith s.data.reverse pat.data.reverse

/-- Models Go `strings.TrimPrefix`: removes one leading copy of `pat`
from `s` when present. -/
def goTrimLeading (s pat : String) : String :=
  if charsLeadWith s.data pat.data then ⟨s.data.drop pat.data.length⟩ else s

/-- Models Go `strings.TrimSuffix`: removes one trailing copy of `pat`
from `s` when present. -/
def goTrimTrailing (s pat : String) : String :=
  if goEndsWith s pat then ⟨s.data.take (s.data.length - pat.data.length)⟩ else s

/-- ASCII lower-casing of one character, as Go `strings.ToLower` acts on
the ASCII inputs relevant here. -/
def asciiLower (c : Char) : Char :=
  if 65 ≤ c.toNat ∧ c.toNat ≤ 90 then Char.ofNat (c.toNat + 32) else c

/-- Models Go `strings.ToLower` (ASCII range). -/
def goToLower (s : String) : String :=
  ⟨s.data.map asciiLower⟩

/-- Lexicographic comparison of character lists by code point; on ASCII
this coincides with Go byte-wise string `<`. -/
def charsLt : List Char → List Char → Bool
  | [], [] => false
  | [], _ :: _ => true
  | _ :: _, [] => false
  | c :: cs, d :: ds =>
    decide (c.toNat < d.toNat) || (c == d && charsLt cs ds)

/-- Models the Go string comparison `a < b`. -/
def goStrLt (a b : String) : Bool :=
  charsLt a.data b.data

/-- The decimal digit character for `n < 10`. -/
def digitChar (n : Nat) : Char := Char.ofNat (48 + n)

/-- Decimal digit list of `n`, with explicit fuel so that the recursion is
structural; `natDec` always supplies enough fuel. -/
def natDecAux : Nat → Nat → List Char
  | 0, _ => []
  | fuel + 1, n =>
    if n < 10 then [digitChar n]
    else natDecAux fuel (n / 10) ++ [digitChar (n % 10)]

/-- Models Go `fmt.Sprintf("%d", n)` for a natural number. -/
def natDec (n : Nat) : String := ⟨natDecAux (n + 1) n⟩

/-- Models Go `strings.Join(parts, sep)`. -/
def joinWith (sep : String) : List String → String
  | [] => ""
  | [x] => x
  | x :: y :: rest => x ++ sep ++ joinWith sep (y :: rest)

/-- Direct embedding of `parseConsulAddress` from `main.go`: split the
hostname on the first `.service.`; if the part before it contains a `.`,
split that part once more on its first `.`, strip a leading `_` from each
half, and return them as `(svcName, svcType)`; the guard returns
`("", "")` when the computed `svcType` still contains a `.`
(the "don't parse IP addresses" heuristic). -/
def parseConsulAddress (hostname : String) : String × String :=
  let svcName0 := (goSplitN2 hostname ".service.").fst
  let p :=
    if goContains svcName0 "." then
      let parts := goSplitN2 svcName0 "."
      (goTrimLeading parts.fst "_", goTrimLeading parts.snd "_")
    else
      (svcName0, "")
  if goCountChar p.snd '.' > 0 then ("", "") else p

/-- The fields of a Go `*url.URL` the source reads or writes:
`Scheme`, `Host`, `Path` and `RawQuery`. -/
structure URL where
  scheme : String
  host : String
  path : String
  rawQuery : String
deriving DecidableEq

/-- A character Go `net/url` accepts unescaped inside a host component
(alphanumerics, the sub-delimiters and host-specific extras, and bytes
outside ASCII); a space, for example, is rejected. -/
def goValidHostChar (c : Char) : Bool :=
  c.isAlphanum || decide (128 ≤ c.toNat) ||
    "-._~!$&()*+,;=:[]<>".data.contains c ||
    c.toNat == 39 || c.toNat == 34

/-- Models the `net/url` round trip `url.Parse(origUrl.String())` performed
inside `buildUrlWithPort`.  `net/url` is outside this repository; the model
captures the one failure mode relevant to the source (and the one the spec
names): `Parse` rejects a serialized URL whose host contains a character the
host encoder disallows, and on success the URL round-trips with path and
query unchanged. -/
def reparseUrl (u : URL) : Option URL :=
  if u.host.data.all goValidHostChar then some u else none

/-- Direct embedding of `buildUrlWithPort` from `main.go`: re-parse the
original URL (failure propagates as the error return, modelled by `none`),
then overwrite its scheme and set its host to `hostname:port`. -/
def buildUrlWithPort (hostname : String) (origUrl : URL) (scheme : String)
    (port : Nat) : Option URL :=
  match reparseUrl origUrl with
  | none => none
  | some u => some { u with scheme := scheme, host := hostname ++ ":" ++ natDec port }

/-- Direct embedding of `RedirectOption.guessScheme` from `main.go`: scan
the tags in order; the first tag whose lower-casing is `"http"` or
`"https"` names the scheme, and the default is `"http"`. -/
def guessScheme : List String → String
  | [] => "http"
  | tag :: rest =>
    if goToLower tag = "http" then "http"
    else if goToLower tag = "https" then "https"
    else guessScheme rest

/-- `RedirectOption` from `main.go`: one Consul service+port pair that can
be redirected to. -/
structure RedirectOption where
  Hostname : String
  Tags : List String
  Port : Nat
deriving DecidableEq

/-- Direct embedding of `RedirectOption.BuildURL` from `main.go`. -/
def RedirectOption.BuildURL (r : RedirectOption) (hostname : String)
    (origUrl : URL) : Option URL :=
  buildUrlWithPort hostname origUrl (guessScheme r.Tags) r.Port

/-- The comparator literal passed to `sort.Slice` in
`queryConsulForHostname`:
`options[i].Hostname < options[j].Hostname && options[i].Port < options[j].Port`. -/
def lessOption (a b : RedirectOption) : Bool :=
  goStrLt a.Hostname b.Hostname && decide (a.Port < b.Port)

/-- One bubbling pass of Go insertion sort, operating on the reversed
already-processed part of the slice: the new element `y` moves left past
`z` exactly while `less y z` holds. -/
def goInsertRev {α : Type} (less : α → α → Bool) : List α → α → List α
  | [], y => [y]
  | z :: zs, y => if less y z then z :: goInsertRev less zs y else y :: z :: zs

/-- Appends `y` to the processed slice and bubbles it left, as one outer
iteration of Go insertion sort does. -/
def goInsertEnd {α : Type} (less : α → α → Bool) (xs : List α) (y : α) : List α :=
  (goInsertRev less xs.reverse y).reverse

/-- Models the `sort.Slice` call in `queryConsulForHostname`.  For slices
shorter than twelve elements (every input appearing in the claims) Go sort
runs insertion sort — element `j` is swapped left while `less(j, j-1)`
holds — which this function reproduces exactly, including its behaviour on
the source's non-total comparator. -/
def sortSliceGo {α : Type} (less : α → α → Bool) (xs : List α) : List α :=
  xs.foldl (goInsertEnd less) []

/-- The fields of a Consul catalog entry the source reads:
`svc.Node`, `svc.ServiceTags` and `svc.ServicePort` (a Go `int`). -/
structure ConsulService where
  Node : String
  ServiceTags : List String
  ServicePort : Int

/-- The external Consul catalog collaborator:
`s.consul.Catalog().Service(svcName, svcType, ...)`, returning either the
registered services or an error. -/
def Catalog : Type := String → String → Except Unit (List ConsulService)

/-- Direct embedding of `queryConsulForHostname` from `main.go`: re-parse
the hostname and short-circuit to an empty result set when both fields are
empty; otherwise query the catalog, propagate its error, convert each
service to a `RedirectOption` (`uint16(svc.ServicePort)` is the value
modulo 2^16), and sort with the source's comparator. -/
def queryConsulForHostname (catalog : Catalog) (hostname : String) :
    Except Unit (List RedirectOption) :=
  let p := parseConsulAddress hostname
  if p.fst = "" ∧ p.snd = "" then Except.ok []
  else
    match catalog p.fst p.snd with
    | Except.error e => Except.error e
    | Except.ok services =>
      Except.ok (sortSliceGo lessOption (services.map (fun svc =>
        { Hostname := svc.Node, Tags := svc.ServiceTags,
          Port := (svc.ServicePort % 65536).toNat })))

/-- The process configuration the resolution logic reads: the parsed
`customRoutes` map (modelled as an association list with distinct keys),
and the `hostnameSuffix`, `redirectToNomadUI` and `nomadUIHostname`
flags. -/
structure Config where
  customRoutes : List (String × String)
  hostnameSuffix : String
  redirectToNomadUI : Bool
  nomadUIHostname : String

/-- One rendered row of the multiple-results listing built by
`ServeHTTP`. -/
structure ResultEntry where
  Url : URL
  FullHostname : String
  Port : Nat
  Tags : String
deriving DecidableEq

/-- The observable response `ServeHTTP` produces for a request, as a
tagged variant.  `healthOk` is the 200 response with body `"ok"` and
`metricsOk` the empty 200 response.  `nilDerefPanic` models the Go runtime
panic raised in the Nomad-UI branch when `buildUrlWithPort` fails:
`redirUrl.Path` is read before `err` is checked, dereferencing a nil
pointer.  `emptyResponse` models the bare `return` in the multiple-results
loop when building an entry's URL fails: the handler returns after logging
with no status or body written. -/
inductive Outcome where
  | healthOk
  | metricsOk
  | staticRedirect (url : String)
  | uiRedirect (url : URL)
  | nilDerefPanic (hostname : String)
  | urlBuildError (hostname : String)
  | parseError (hostname : String)
  | queryError (hostname : String)
  | singleRedirect (url : URL)
  | noResults (svcName portTypeSuffix : String)
  | multipleResults (svcName portTypeSuffix : String) (entries : List ResultEntry)
  | emptyResponse (hostname : String)
deriving DecidableEq

/-- Is the outcome a `multipleResults` listing? -/
def Outcome.isMultipleResults : Outcome → Bool
  | .multipleResults _ _ _ => true
  | _ => false

/-- Is the outcome a `urlBuildError`? -/
def Outcome.isUrlBuildError : Outcome → Bool
  | .urlBuildError _ => true
  | _ => false

/-- The suffix-stripped retry of the static route table (step 2 of the
chain): when the hostname ends with `"." + hostnameSuffix`, strip that and
look the result up in `customRoutes`. -/
def staticSuffixLookup (cfg : Config) (hostname : String) : Option String :=
  if goEndsWith hostname ("." ++ cfg.hostnameSuffix) then
    List.lookup (goTrimTrailing hostname ("." ++ cfg.hostnameSuffix)) cfg.customRoutes
  else none

/-- The guard of the Nomad-UI branch:
`*redirectToNomadUI && (strings.HasSuffix(hostname, *hostnameSuffix) || hostname == *nomadUIHostname)`. -/
def uiCondition (cfg : Config) (hostname : String) : Bool :=
  cfg.redirectToNomadUI &&
    (goEndsWith hostname cfg.hostnameSuffix || hostname == cfg.nomadUIHostname)

/-- Direct embedding of `addHostnameSuffix` from `main.go`. -/
def addHostnameSuffix (suffix hostname : String) : String :=
  if suffix.data.length = 0 then hostname
  else hostname ++ "." ++ goTrimLeading suffix "."

/-- The `portTypeSuffix` display string computed in `ServeHTTP`. -/
def portTypeSuffixOf (svcType : String) : String :=
  if svcType.data.length > 0 then " and port type <code>" ++ svcType ++ "</code>"
  else ""

/-- The tag display string computed per entry in the multiple-results
loop of `ServeHTTP`. -/
def tagsDisplay (tags : List String) : String :=
  let t := joinWith ", " tags
  if t.data.length > 0 then " (" ++ t ++ ")" else ""

/-- The multiple-results loop of `ServeHTTP`: build each entry's row using
the fully-qualified node hostname; a URL-build failure aborts the whole
loop (`none`), exactly as the Go loop's early `return` does. -/
def buildResultEntries (suffix : String) (origUrl : URL) :
    List RedirectOption → Option (List ResultEntry)
  | [] => some []
  | option :: rest =>
    let fullHostname := addHostnameSuffix suffix option.Hostname
    match option.BuildURL fullHostname origUrl with
    | none => none
    | some u =>
      match buildResultEntries suffix origUrl rest with
      | none => none
      | some entries =>
        some ({ Url := u, FullHostname := fullHostname, Port := option.Port,
                Tags := tagsDisplay option.Tags } :: entries)

/-- Steps 4–6 of the `ServeHTTP` chain: parse the hostname (empty service
name is the parse-error sentinel), query Consul, then branch on the number
of results: exactly one result redirects using the unmodified request
hostname; zero results produce the no-results page; two or more produce
the listing built by `buildResultEntries`. -/
def consulBranch (cfg : Config) (catalog : Catalog) (hostname : String)
    (origUrl : URL) : Outcome :=
  let p := parseConsulAddress hostname
  if p.fst = "" then Outcome.parseError hostname
  else
    match queryConsulForHostname catalog hostname with
    | Except.error _ => Outcome.queryError hostname
    | Except.ok result =>
      match result with
      | [option] =>
        match option.BuildURL hostname origUrl with
        | none => Outcome.urlBuildError hostname
        | some u => Outcome.singleRedirect u
      | result =>
        if result.isEmpty then Outcome.noResults p.fst (portTypeSuffixOf p.snd)
        else
          match buildResultEntries cfg.hostnameSuffix origUrl result with
          | none => Outcome.emptyResponse hostname
          | some entries =>
            Outcome.multipleResults p.fst (portTypeSuffixOf p.snd) entries

/-- The resolution chain of `ServeHTTP` after the health/metrics
early-returns: exact static route, suffix-stripped static route, the
Nomad-UI branch (whose nil-dereference-on-build-failure is modelled by
`Outcome.nilDerefPanic`), then catalog-backed resolution. -/
def resolve (cfg : Config) (catalog : Catalog) (hostname : String)
    (origUrl : URL) : Outcome :=
  match List.lookup hostname cfg.customRoutes with
  | some redirUrl => Outcome.staticRedirect redirUrl
  | none =>
    match staticSuffixLookup cfg hostname with
    | some redirUrl => Outcome.staticRedirect redirUrl
    | none =>
      if uiCondition cfg hostname then
        match buildUrlWithPort hostname origUrl "http" 4646 with
        | none => Outcome.nilDerefPanic hostname
        | some redirUrl =>
          Outcome.uiRedirect
            (if redirUrl.path = "" ∨ redirUrl.path = "/" then
              { redirUrl with path := "/ui/clients", rawQuery := "search=" ++ hostname }
            else redirUrl)
      else consulBranch cfg catalog hostname origUrl

/-- The incoming request fields the handler reads: the `Host`
header and the request URL. -/
structure Request where
  Host : String
  URL : URL

/-- Direct embedding of `getHostname` from `main.go`:
`strings.SplitN(req.Host, ":", 2)[0]`. -/
def getHostname (req : Request) : String :=
  (goSplitN2 req.Host ":").fst

/-- Direct embedding of `ServeHTTP` from `main.go`: the health and metrics
early-returns (matching on the path with one leading `/` stripped),
followed by the resolution chain on `getHostname req` and the request
URL. -/
def serveHTTP (cfg : Config) (catalog : Catalog) (req : Request) : Outcome :=
  if goHasLead (goTrimLeading req.URL.path "/") "health" then Outcome.healthOk
  else if goHasLead (goTrimLeading req.URL.path "/") "metrics" then Outcome.metricsOk
  else resolve cfg catalog (getHostname req) req.URL

/-! ## Helper lemmas -/

/-- A successful re-parse returns the URL unchanged. -/
theorem reparseUrl_eq {u v : URL} (h : reparseUrl u = some v) : v = u := by
  unfold reparseUrl at h
  split at h
  · exact (Option.some.inj h).symm
  · exact absurd h (by simp)

/-- When the original URL re-parses, `buildUrlWithPort` returns the URL
with the requested scheme, host `hostname:port`, and the original path and
query. -/
theorem buildUrlWithPort_eq {origUrl v : URL} (h : reparseUrl origUrl = some v)
    (hostname scheme : String) (port : Nat) :
    buildUrlWithPort hostname origUrl scheme port =
      some { scheme := scheme, host := hostname ++ ":" ++ natDec port,
             path := origUrl.path, rawQuery := origUrl.rawQuery } := by
  have hv := reparseUrl_eq h
  subst hv
  unfold buildUrlWithPort
  rw [h]

/-- When the original URL re-parses, the multiple-results loop succeeds on
every entry and produces one row per catalog entry, each built from the
fully-qualified node hostname. -/
theorem buildResultEntries_of_ok {origUrl v : URL} (h : reparseUrl origUrl = some v)
    (suffix : String) :
    ∀ l : List RedirectOption,
      buildResultEntries suffix origUrl l = some (l.map fun option =>
        { Url := { scheme := guessScheme option.Tags,
                   host := addHostnameSuffix suffix option.Hostname ++ ":" ++ natDec option.Port,
                   path := origUrl.path, rawQuery := origUrl.rawQuery },
          FullHostname := addHostnameSuffix suffix option.Hostname,
          Port := option.Port,
          Tags := tagsDisplay option.Tags }) := by
  intro l
  induction l with
  | nil => rfl
  | cons o rest ih =>
    have hb : o.BuildURL (addHostnameSuffix suffix o.Hostname) origUrl =
        some { scheme := guessScheme o.Tags,
               host := addHostnameSuffix suffix o.Hostname ++ ":" ++ natDec o.Port,
               path := origUrl.path, rawQuery := origUrl.rawQuery } := by
      unfold RedirectOption.BuildURL
      exact buildUrlWithPort_eq h _ _ _
    simp only [buildResultEntries]
    rw [hb, ih]
    rfl

/-- A successful multiple-results loop produces exactly one row per
catalog entry. -/
theorem buildResultEntries_length {suffix : String} {origUrl : URL} :
    ∀ {l : List RedirectOption} {es : List ResultEntry},
      buildResultEntries suffix origUrl l = some es → es.length = l.length := by
  intro l
  induction l with
  | nil =>
    intro es h
    unfold buildResultEntries at h
    cases h
    rfl
  | cons o rest ih =>
    intro es h
    simp only [buildResultEntries] at h
    cases hb : o.BuildURL (addHostnameSuffix suffix o.Hostname) origUrl with
    | none => rw [hb] at h; cases h
    | some u =>
      rw [hb] at h
      cases hr : buildResultEntries suffix origUrl rest with
      | none => rw [hr] at h; cases h
      | some es0 =>
        rw [hr] at h
        cases h
        simp [ih hr]

/-- When `sep` does not occur in `s`, the second component of the
two-way split is empty. -/
theorem goSplitN2_snd_of_none {s sep : String} (hc : goContains s sep = false) :
    (goSplitN2 s sep).snd = "" := by
  unfold goContains at hc
  unfold goSplitN2
  cases hsplit : charsSplitFirst s.data sep.data with
  | none => rfl
  | some val => rw [hsplit] at hc; simp at hc

/-- When the static-route steps miss and the Nomad-UI guard is false, the
resolution chain reduces to the catalog branch. -/
theorem resolve_consul (cfg : Config) (catalog : Catalog) (hostname : String)
    (origUrl : URL)
    (h1 : List.lookup hostname cfg.customRoutes = none)
    (h2 : staticSuffixLookup cfg hostname = none)
    (h3 : uiCondition cfg hostname = false) :
    resolve cfg catalog hostname origUrl = consulBranch cfg catalog hostname origUrl := by
  unfold resolve
  rw [h1, h2, h3]
  rfl

/-- Unfolding of the catalog branch when the hostname parses and the
catalog query succeeds. -/
theorem consulBranch_eq (cfg : Config) (catalog : Catalog) (hostname : String)
    (origUrl : URL)
    (h4 : ¬ (parseConsulAddress hostname).fst = "")
    (result : List RedirectOption)
    (h5 : queryConsulForHostname catalog hostname = Except.ok result) :
    consulBranch cfg catalog hostname origUrl =
      (fun r =>
        match r with
        | [option] =>
          (match option.BuildURL hostname origUrl with
           | none => Outcome.urlBuildError hostname
           | some u => Outcome.singleRedirect u)
        | r =>
          if r.isEmpty then
            Outcome.noResults (parseConsulAddress hostname).fst
              (portTypeSuffixOf (parseConsulAddress hostname).snd)
          else
            match buildResultEntries cfg.hostnameSuffix origUrl r with
            | none => Outcome.emptyResponse hostname
            | some entries =>
              Outcome.multipleResults (parseConsulAddress hostname).fst
                (portTypeSuffixOf (parseConsulAddress hostname).snd) entries) result := by
  unfold consulBranch
  rw [if_neg h4, h5]

/-! ## Claim theorems -/

/-- C1: the claim says `parseConsulAddress "port.svc.service.dc.consul"`
returns serviceName `"svc"` and portType `"port"`.  The code instead
assigns the first sub-segment to the service name and the second to the
port type: the returned pair is `("port", "svc")`.  This contradicts the
program's own hostname-tips template (`PortName.ServiceName.service.consul`)
and makes the Consul query use the port name as the service name. -/
theorem parseConsulAddress_two_segment_order :
    parseConsulAddress "port.svc.service.dc.consul" = ("port", "svc") := by decide

/-- C2: the claim says a URL-build failure in the Nomad-UI branch yields a
`UrlBuildError` value and never panics.  The code reads `redirUrl.Path`
before checking `err`, so a build failure dereferences a nil pointer: at a
matching hostname with an original URL whose host does not re-parse, the
outcome is the modelled runtime panic, not `UrlBuildError`. -/
theorem nomadUI_build_failure_panics :
    resolve ⟨[], "cluster.local", true, ""⟩ (fun _ _ => Except.ok [])
        "node1.cluster.local" ⟨"http", "a b", "/", ""⟩ =
      Outcome.nilDerefPanic "node1.cluster.local" ∧
    (resolve ⟨[], "cluster.local", true, ""⟩ (fun _ _ => Except.ok [])
        "node1.cluster.local" ⟨"http", "a b", "/", ""⟩).isUrlBuildError = false := by
  exact ⟨by decide, by decide⟩

/-- C3 counterexample: the claim says the selection step leaves
`[{hostname:"b",port:2},{hostname:"a",port:1}]` in its original order.
Go insertion sort asks `less(1,0) = ("a" < "b" ∧ 1 < 2) = true` and swaps,
so the output is not the original sequence. -/
theorem sortSlice_pair_swaps_cex :
    sortSliceGo lessOption [⟨"b", [], 2⟩, ⟨"a", [], 1⟩] ≠
      [⟨"b", [], 2⟩, ⟨"a", [], 1⟩] := by decide

/-- C3 amended: applying the selection step with the source's comparator
to `[{hostname:"b",port:2},{hostname:"a",port:1}]` swaps the pair — the
sort evaluates `less` on the pair in the order `(element 1, element 0)`,
which holds — so the output is the lexicographically sorted
`[{"a",1},{"b",2}]`. -/
theorem sortSlice_pair_sorted :
    sortSliceGo lessOption [⟨"b", [], 2⟩, ⟨"a", [], 1⟩] =
      [⟨"a", [], 1⟩, ⟨"b", [], 2⟩] := by decide

/-- C4 counterexample: the claim says a resolution with two or more
catalog entries yields either a complete `MultipleResults` listing or a
`UrlBuildError`.  With two entries and an original URL whose host does not
re-parse, the handler instead returns after logging with nothing written:
the outcome is the modelled empty response, which is neither a listing nor
a typed error. -/
theorem multi_build_failure_empty_cex :
    resolve ⟨[], "", false, ""⟩
        (fun _ _ => Except.ok [⟨"n1", [], 80⟩, ⟨"n2", [], 81⟩])
        "web.service.consul" ⟨"http", "a b", "/", ""⟩ =
      Outcome.emptyResponse "web.service.consul" ∧
    (resolve ⟨[], "", false, ""⟩
        (fun _ _ => Except.ok [⟨"n1", [], 80⟩, ⟨"n2", [], 81⟩])
        "web.service.consul" ⟨"http", "a b", "/", ""⟩).isMultipleResults = false ∧
    (resolve ⟨[], "", false, ""⟩
        (fun _ _ => Except.ok [⟨"n1", [], 80⟩, ⟨"n2", [], 81⟩])
        "web.service.consul" ⟨"http", "a b", "/", ""⟩).isUrlBuildError = false := by
  exact ⟨by decide, by decide, by decide⟩

/-- C4 amended: for every resolution reaching the catalog branch with two
or more entries, the outcome is either a `MultipleResults` listing with
exactly one row per entry (when every entry's URL builds), or — when
building an entry's URL fails — the empty response modelling the bare
`return` in the loop; no `UrlBuildError` is produced on this path. -/
theorem multi_results_complete_or_empty (cfg : Config) (catalog : Catalog)
    (hostname : String) (origUrl : URL)
    (h1 : List.lookup hostname cfg.customRoutes = none)
    (h2 : staticSuffixLookup cfg hostname = none)
    (h3 : uiCondition cfg hostname = false)
    (h4 : ¬ (parseConsulAddress hostname).fst = "")
    (result : List RedirectOption)
    (h5 : queryConsulForHostname catalog hostname = Except.ok result)
    (h6 : 2 ≤ result.length) :
    (∃ entries, buildResultEntries cfg.hostnameSuffix origUrl result = some entries ∧
        entries.length = result.length ∧
        resolve cfg catalog hostname origUrl =
          Outcome.multipleResults (parseConsulAddress hostname).fst
            (portTypeSuffixOf (parseConsulAddress hostname).snd) entries) ∨
    (buildResultEntries cfg.hostnameSuffix origUrl result = none ∧
        resolve cfg catalog hostname origUrl = Outcome.emptyResponse hostname) := by
  have hres := resolve_consul cfg catalog hostname origUrl h1 h2 h3
  have hcb := consulBranch_eq cfg catalog hostname origUrl h4 result h5
  cases result with
  | nil => simp at h6
  | cons a t =>
    cases t with
    | nil => simp at h6
    | cons b rest =>
      cases hbe : buildResultEntries cfg.hostnameSuffix origUrl (a :: b :: rest) with
      | none =>
        right
        refine ⟨rfl, ?_⟩
        rw [hres, hcb]
        simp [hbe]
      | some es =>
        left
        refine ⟨es, rfl, buildResultEntries_length hbe, ?_⟩
        rw [hres, hcb]
        simp [hbe]

theorem multi_results_complete_or_empty_w :
    List.lookup "web.service.consul" ([] : List (String × String)) = none ∧
    staticSuffixLookup ⟨[], "cluster.local", false, ""⟩ "web.service.consul" = none ∧
    uiCondition ⟨[], "cluster.local", false, ""⟩ "web.service.consul" = false ∧
    ¬ (parseConsulAddress "web.service.consul").fst = "" ∧
    queryConsulForHostname (fun _ _ => Except.ok [⟨"n1", ["x"], 80⟩, ⟨"n2", [], 81⟩])
        "web.service.consul" =
      Except.ok [⟨"n1", ["x"], 80⟩, ⟨"n2", [], 81⟩] ∧
    2 ≤ ([⟨"n1", ["x"], 80⟩, ⟨"n2", [], 81⟩] : List RedirectOption).length ∧
    ((∃ entries,
        buildResultEntries "cluster.local" ⟨"http", "h", "/x", ""⟩
            [⟨"n1", ["x"], 80⟩, ⟨"n2", [], 81⟩] = some entries ∧
        entries.length = ([⟨"n1", ["x"], 80⟩, ⟨"n2", [], 81⟩] : List RedirectOption).length ∧
        resolve ⟨[], "cluster.local", false, ""⟩
            (fun _ _ => Except.ok [⟨"n1", ["x"], 80⟩, ⟨"n2", [], 81⟩])
            "web.service.consul" ⟨"http", "h", "/x", ""⟩ =
          Outcome.multipleResults (parseConsulAddress "web.service.consul").fst
            (portTypeSuffixOf (parseConsulAddress "web.service.consul").snd) entries) ∨
      (buildResultEntries "cluster.local" ⟨"http", "h", "/x", ""⟩
          [⟨"n1", ["x"], 80⟩, ⟨"n2", [], 81⟩] = none ∧
        resolve ⟨[], "cluster.local", false, ""⟩
            (fun _ _ => Except.ok [⟨"n1", ["x"], 80⟩, ⟨"n2", [], 81⟩])
            "web.service.consul" ⟨"http", "h", "/x", ""⟩ =
          Outcome.emptyResponse "web.service.consul")) :=
  ⟨rfl, rfl, rfl, by decide, rfl, by decide,
    multi_results_complete_or_empty ⟨[], "cluster.local", false, ""⟩
      (fun _ _ => Except.ok [⟨"n1", ["x"], 80⟩, ⟨"n2", [], 81⟩])
      "web.service.consul" ⟨"http", "h", "/x", ""⟩
      rfl rfl rfl (by decide) [⟨"n1", ["x"], 80⟩, ⟨"n2", [], 81⟩] rfl (by decide)⟩

/-- C5: a hostname that is an exact key of the static route table resolves
to `StaticRedirect` with the table's URL, for every original URL, catalog,
suffix, and UI-shortcut configuration: the exact static lookup is the
first step of the resolution chain and short-circuits everything after
it. -/
theorem static_route_first (cfg : Config) (catalog : Catalog) (hostname : String)
    (origUrl : URL) (target : String)
    (h : List.lookup hostname cfg.customRoutes = some target) :
    resolve cfg catalog hostname origUrl = Outcome.staticRedirect target := by
  unfold resolve
  rw [h]

theorem static_route_first_w :
    List.lookup "a.example" [("a.example", "http://target")] = some "http://target" ∧
    resolve ⟨[("a.example", "http://target")], "example", true, "a.example"⟩
        (fun _ _ => Except.error ()) "a.example" ⟨"http", "a b", "/x", "q"⟩ =
      Outcome.staticRedirect "http://target" :=
  ⟨by decide, static_route_first _ _ _ _ _ (by decide)⟩

/-- C6: in the catalog branch (static steps missed, UI guard false,
hostname parsed, query succeeded, original URL re-parses), a single
catalog entry produces a `SingleRedirect` whose host is built from the
unmodified request hostname, while two or more entries produce a listing
in which every row's URL host is built from the fully-qualified node
hostname `addHostnameSuffix cfg.hostnameSuffix option.Hostname`. -/
theorem single_multi_hostname_asymmetry (cfg : Config) (catalog : Catalog)
    (hostname : String) (origUrl v : URL)
    (h1 : List.lookup hostname cfg.customRoutes = none)
    (h2 : staticSuffixLookup cfg hostname = none)
    (h3 : uiCondition cfg hostname = false)
    (h4 : ¬ (parseConsulAddress hostname).fst = "")
    (hr : reparseUrl origUrl = some v)
    (result : List RedirectOption)
    (h5 : queryConsulForHostname catalog hostname = Except.ok result) :
    (∀ option, result = [option] →
        resolve cfg catalog hostname origUrl =
          Outcome.singleRedirect
            { scheme := guessScheme option.Tags,
              host := hostname ++ ":" ++ natDec option.Port,
              path := origUrl.path, rawQuery := origUrl.rawQuery }) ∧
    (2 ≤ result.length →
        resolve cfg catalog hostname origUrl =
          Outcome.multipleResults (parseConsulAddress hostname).fst
            (portTypeSuffixOf (parseConsulAddress hostname).snd)
            (result.map fun option =>
              { Url := { scheme := guessScheme option.Tags,
                         host := addHostnameSuffix cfg.hostnameSuffix option.Hostname ++
                           ":" ++ natDec option.Port,
                         path := origUrl.path, rawQuery := origUrl.rawQuery },
                FullHostname := addHostnameSuffix cfg.hostnameSuffix option.Hostname,
                Port := option.Port,
                Tags := tagsDisplay option.Tags })) := by
  have hres := resolve_consul cfg catalog hostname origUrl h1 h2 h3
  have hcb := consulBranch_eq cfg catalog hostname origUrl h4 result h5
  constructor
  · intro option heq
    subst heq
    rw [hres, hcb]
    have hb : option.BuildURL hostname origUrl =
        some { scheme := guessScheme option.Tags,
               host := hostname ++ ":" ++ natDec option.Port,
               path := origUrl.path, rawQuery := origUrl.rawQuery } := by
      unfold RedirectOption.BuildURL
      exact buildUrlWithPort_eq hr _ _ _
    simp [hb]
  · intro h6
    cases result with
    | nil => simp at h6
    | cons a t =>
      cases t with
      | nil => simp at h6
      | cons b rest =>
        rw [hres, hcb]
        simp [buildResultEntries_of_ok hr]

theorem single_multi_hostname_asymmetry_w :
    queryConsulForHostname (fun _ _ => Except.ok [⟨"n1", ["https"], 443⟩])
        "web.service.consul" = Except.ok [⟨"n1", ["https"], 443⟩] ∧
    reparseUrl ⟨"http", "web.service.consul", "/x", "q=1"⟩ =
      some ⟨"http", "web.service.consul", "/x", "q=1"⟩ ∧
    resolve ⟨[], "cluster.local", false, ""⟩
        (fun _ _ => Except.ok [⟨"n1", ["https"], 443⟩])
        "web.service.consul" ⟨"http", "web.service.consul", "/x", "q=1"⟩ =
      Outcome.singleRedirect ⟨"https", "web.service.consul:443", "/x", "q=1"⟩ :=
  ⟨rfl, by decide, by
    have h := (single_multi_hostname_asymmetry ⟨[], "cluster.local", false, ""⟩
      (fun _ _ => Except.ok [⟨"n1", ["https"], 443⟩]) "web.service.consul"
      ⟨"http", "web.service.consul", "/x", "q=1"⟩
      ⟨"http", "web.service.consul", "/x", "q=1"⟩
      rfl rfl rfl (by decide) (by decide) [⟨"n1", ["https"], 443⟩] rfl).1
      ⟨"n1", ["https"], 443⟩ rfl
    exact h⟩

/-- C7: whenever the original URL re-parses, `buildUrlWithPort` returns a
URL with host `hostname:port`, the given scheme, and the original URL's
path and query verbatim. -/
theorem buildUrlWithPort_fields (hostname : String) (origUrl v : URL)
    (scheme : String) (port : Nat)
    (h : reparseUrl origUrl = some v) :
    buildUrlWithPort hostname origUrl scheme port =
      some { scheme := scheme, host := hostname ++ ":" ++ natDec port,
             path := origUrl.path, rawQuery := origUrl.rawQuery } :=
  buildUrlWithPort_eq h hostname scheme port

theorem buildUrlWithPort_fields_w :
    reparseUrl ⟨"http", "orig", "/x", "q=1"⟩ = some ⟨"http", "orig", "/x", "q=1"⟩ ∧
    buildUrlWithPort "h" ⟨"http", "orig", "/x", "q=1"⟩ "https" 8080 =
      some ⟨"https", "h:8080", "/x", "q=1"⟩ :=
  ⟨by decide, by
    have h := buildUrlWithPort_fields "h" ⟨"http", "orig", "/x", "q=1"⟩
      ⟨"http", "orig", "/x", "q=1"⟩ "https" 8080 (by decide)
    exact h⟩

/-- C8: whenever the segment left of the first `.service.` yields a
port-type field (the second returned field, before the guard) containing a
`.`, the IP-address guard makes the whole parse fail: both returned
fields are empty. -/
theorem parse_ip_guard (hostname : String)
    (h : goCountChar (goTrimLeading
        (goSplitN2 (goSplitN2 hostname ".service.").fst ".").snd "_") '.' > 0) :
    parseConsulAddress hostname = ("", "") := by
  by_cases hc : goContains (goSplitN2 hostname ".service.").fst "." = true
  · unfold parseConsulAddress
    simp only [hc, if_true, if_pos h]
  · exfalso
    have hsnd : (goSplitN2 (goSplitN2 hostname ".service.").fst ".").snd = "" :=
      goSplitN2_snd_of_none (by simpa using hc)
    rw [hsnd] at h
    have : goCountChar (goTrimLeading "" "_") '.' = 0 := by decide
    rw [this] at h
    exact absurd h (by decide)

theorem parse_ip_guard_w :
    goCountChar (goTrimLeading
        (goSplitN2 (goSplitN2 "10.0.0.1.service.consul" ".service.").fst ".").snd "_") '.' > 0 ∧
    parseConsulAddress "10.0.0.1.service.consul" = ("", "") :=
  ⟨by decide, parse_ip_guard _ (by decide)⟩

/-- C9: `guessScheme` returns the lower-cased value of the first tag in
iteration order whose lower-casing is `"http"` or `"https"`, and defaults
to `"http"` when no tag matches; the scan never reorders the tags. -/
theorem guessScheme_first_match (tags : List String) :
    guessScheme tags =
      match tags.find? (fun t => goToLower t == "http" || goToLower t == "https") with
      | none => "http"
      | some t => goToLower t := by
  induction tags with
  | nil => rfl
  | cons tag rest ih =>
    by_cases h1 : goToLower tag = "http"
    · simp [guessScheme, List.find?, h1]
    · by_cases h2 : goToLower tag = "https"
      · simp [guessScheme, List.find?, h1, h2]
      · have b1 : (goToLower tag == "http") = false := by simp [h1]
        have b2 : (goToLower tag == "https") = false := by simp [h2]
        simp [guessScheme, List.find?, h1, h2, b1, b2, ih]

/-- C10: a request whose path, after one leading `/` is stripped, begins
with `health` is answered with the 200 `"ok"` response before any
resolution step runs — for every configuration (static routes included)
and every catalog; likewise a `metrics` path gets the empty 200
response. -/
theorem health_metrics_bypass (cfg : Config) (catalog : Catalog) (req : Request) :
    (goHasLead (goTrimLeading req.URL.path "/") "health" = true →
        serveHTTP cfg catalog req = Outcome.healthOk) ∧
    (goHasLead (goTrimLeading req.URL.path "/") "health" = false →
      goHasLead (goTrimLeading req.URL.path "/") "metrics" = true →
        serveHTTP cfg catalog req = Outcome.metricsOk) := by
  constructor
  · intro h
    unfold serveHTTP
    rw [h]
    rfl
  · intro h1 h2
    unfold serveHTTP
    rw [h1, h2]
    rfl

theorem health_metrics_bypass_w :
    goHasLead (goTrimLeading "/healthz" "/") "health" = true ∧
    serveHTTP ⟨[("a.example", "http://u")], "example", true, "a.example"⟩
        (fun _ _ => Except.error ())
        ⟨"a.example:80", ⟨"http", "a.example", "/healthz", ""⟩⟩ =
      Outcome.healthOk :=
  ⟨by decide,
    (health_metrics_bypass ⟨[("a.example", "http://u")], "example", true, "a.example"⟩
      (fun _ _ => Except.error ())
      ⟨"a.example:80", ⟨"http", "a.example", "/healthz", ""⟩⟩).1 (by decide)⟩

end PortRedirector
